import Mathlib

/-!
Verification of the movie-catalog query and identity-resolution core of the
chills API backend, by a shallow embedding of the JavaScript sources into
Lean 4.

Modelling conventions, used throughout:

* JavaScript numbers that the code only ever uses as integers (page, limit,
  totalItems, counters, ids, timestamps) are embedded as `Int` or `Nat`;
  `Math.max`/`Math.min` become `max`/`min`; `Math.ceil(a / b)` on
  non-negative integers with `b ≥ 1` is the exact rational ceiling,
  `(a + b - 1) / b` in `Nat` (IEEE-754 doubles represent these catalog-sized
  integers exactly, so the idealization is faithful).
* Strings are embedded as `List Char`.
* Code that can throw is embedded in `Except String`.
* `undefined`-able values become `Option`; JavaScript truthiness tests on
  them are spelled out at each site.
-/

/-! ## Pagination calculator (src/utils/pagination.js, `calculatePagination`
and `calculatePageRange`) -/

/-- Result of `calculatePageRange` (src/utils/pagination.js lines 93-123).
The JS field `end` is embedded as `stop` because `end` is a Lean keyword. -/
structure PageRange where
  start : Nat
  stop : Nat
  pages : List Nat
  showEllipsisStart : Bool
  showEllipsisEnd : Bool
  deriving Repr, DecidableEq

/-- Embedding of `calculatePageRange(currentPage, totalPages, maxPages)`.
`Array.from({length: n}, (_, i) => i + start)` is `(List.range n).map (· + start)`.
`Math.max(1, end - maxPages + 1)` is computed in JS over possibly negative
integers; `max 1 (end0 + 1 - maxPages)` in `Nat` yields the same value
(both clamp everything below 1 up to 1). -/
def calculatePageRange (currentPage totalPages maxPages : Nat) : PageRange :=
  if totalPages ≤ maxPages then
    { start := 1
      stop := totalPages
      pages := (List.range totalPages).map (· + 1)
      showEllipsisStart := false
      showEllipsisEnd := false }
  else
    let halfMax := maxPages / 2
    let start0 := max 1 (currentPage - halfMax)
    let end0 := min totalPages (start0 + maxPages - 1)
    let start1 := if end0 = totalPages then max 1 (end0 + 1 - maxPages) else start0
    { start := start1
      stop := end0
      pages := (List.range (end0 - start1 + 1)).map (· + start1)
      showEllipsisStart := decide (1 < start1)
      showEllipsisEnd := decide (end0 < totalPages) }

/-- Result record of `calculatePagination` (src/utils/pagination.js lines
50-83).  `null` page pointers are `Option.none`. -/
structure PaginationMeta where
  currentPage : Nat
  totalPages : Nat
  totalItems : Nat
  itemsPerPage : Nat
  hasNextPage : Bool
  hasPrevPage : Bool
  hasFirstPage : Bool
  hasLastPage : Bool
  nextPage : Option Nat
  prevPage : Option Nat
  firstPage : Nat
  lastPage : Nat
  startItem : Nat
  endItem : Nat
  itemsOnCurrentPage : Nat
  offset : Nat
  pageRange : PageRange
  isEmpty : Bool
  isFirstPage : Bool
  isLastPage : Bool
  progressPercentage : Nat
  deriving Repr, DecidableEq

/-- Embedding of `calculatePagination({page, limit, totalItems, maxPages})`
(src/utils/pagination.js lines 19-84).  The destructuring defaults
(`page = 1, limit = 10, totalItems = 0, maxPages = 10`) are supplied by the
callers in this file.  `parseInt` of a value that is already an integer is
the identity, so the inputs are `Int`.
`itemsOnCurrentPage = Math.max(0, endItem - startItem + 1)` is computed in
JS over possibly negative integers, hence the explicit `Int` excursion.
`progressPercentage = Math.round((currentPage / totalPages) * 100)` rounds
the exact ratio half-up, which for non-negative integers is
`(200 * currentPage + totalPages) / (2 * totalPages)` in `Nat`. -/
def calculatePagination (page limit totalItems : Int) (maxPages : Nat) :
    PaginationMeta :=
  let currentPage : Nat := (max 1 page).toNat
  let itemsPerPage : Nat := (max 1 limit).toNat
  let totalCount : Nat := (max 0 totalItems).toNat
  let totalPages : Nat := (totalCount + itemsPerPage - 1) / itemsPerPage
  let offset : Nat := (currentPage - 1) * itemsPerPage
  let hasNextPage := decide (currentPage < totalPages)
  let hasPrevPage := decide (1 < currentPage)
  let startItem : Nat := if 0 < totalCount then offset + 1 else 0
  let endItem : Nat := min (offset + itemsPerPage) totalCount
  let itemsOnCurrentPage : Nat :=
    (max 0 ((endItem : Int) - (startItem : Int) + 1)).toNat
  { currentPage := currentPage
    totalPages := totalPages
    totalItems := totalCount
    itemsPerPage := itemsPerPage
    hasNextPage := hasNextPage
    hasPrevPage := hasPrevPage
    hasFirstPage := decide (1 < currentPage)
    hasLastPage := decide (currentPage < totalPages)
    nextPage := if currentPage < totalPages then some (currentPage + 1) else none
    prevPage := if 1 < currentPage then some (currentPage - 1) else none
    firstPage := 1
    lastPage := totalPages
    startItem := startItem
    endItem := endItem
    itemsOnCurrentPage := itemsOnCurrentPage
    offset := offset
    pageRange := calculatePageRange currentPage totalPages maxPages
    isEmpty := decide (totalCount = 0)
    isFirstPage := decide (currentPage = 1)
    isLastPage := decide (currentPage = totalPages)
    progressPercentage :=
      if 0 < totalPages then (200 * currentPage + totalPages) / (2 * totalPages)
      else 0 }

/-- Ceiling division on `Nat`, as the source computes it: the key order
characterization.  For `1 ≤ L`, `(N + L - 1) / L ≤ c ↔ N ≤ c * L`. -/
theorem ceilPages_le_iff (N L c : Nat) (hL : 1 ≤ L) :
    (N + L - 1) / L ≤ c ↔ N ≤ c * L := by
  rw [← Nat.lt_succ_iff, Nat.div_lt_iff_lt_mul (by omega : 0 < L),
    Nat.succ_mul]
  omega

/-- Strict version: a zero-based page index `k` is below the page count iff
its first item index is below the total. -/
theorem lt_ceilPages_iff (N L k : Nat) (hL : 1 ≤ L) :
    k < (N + L - 1) / L ↔ k * L < N := by
  have h := ceilPages_le_iff N L k hL
  omega

/-- Computation of the source's `(N + L - 1) / L` as the exact rational
ceiling of `N / L`, for `1 ≤ L`. -/
theorem ceilPages_eq_nat_ceil (N L : Nat) (hL : 1 ≤ L) :
    (N + L - 1) / L = ⌈(N : ℚ) / (L : ℚ)⌉₊ := by
  have hL0 : (0 : ℚ) < (L : ℚ) := by exact_mod_cast hL
  apply le_antisymm
  · rw [ceilPages_le_iff N L _ hL]
    have h1 : (N : ℚ) / L ≤ (⌈(N : ℚ) / L⌉₊ : ℚ) := Nat.le_ceil _
    rw [div_le_iff hL0] at h1
    exact_mod_cast h1
  · rw [Nat.ceil_le, div_le_iff hL0]
    have h3 : N ≤ ((N + L - 1) / L) * L := (ceilPages_le_iff N L _ hL).mp le_rfl
    exact_mod_cast h3

/-- C3: for every `page ≥ 1`, `limit ≥ 1`, `totalItems ≥ 0`,
`calculatePagination` returns metadata with
`totalPages = ceil(totalItems / itemsPerPage)` (0 when `totalItems = 0`),
`hasNextPage` exactly when `currentPage < totalPages`, and
`startItem = endItem = 0` when `totalItems = 0`; moreover
`compute(page=1, limit=10, totalItems=0)` gives `totalPages=0`,
`hasNextPage=false`, `startItem=0`, `endItem=0`, and
`compute(page=2, limit=10, totalItems=95)` gives `currentPage=2`,
`totalPages=10`, `startItem=11`, `endItem=20`, `hasNextPage=true`,
`hasPrevPage=true`. -/
theorem calculatePagination_invariants (page limit totalItems : Int)
    (hp : 1 ≤ page) (hl : 1 ≤ limit) (ht : 0 ≤ totalItems) :
    ((calculatePagination page limit totalItems 10).totalPages =
      ⌈((calculatePagination page limit totalItems 10).totalItems : ℚ) /
        ((calculatePagination page limit totalItems 10).itemsPerPage : ℚ)⌉₊) ∧
    ((calculatePagination page limit totalItems 10).hasNextPage = true ↔
      (calculatePagination page limit totalItems 10).currentPage <
        (calculatePagination page limit totalItems 10).totalPages) ∧
    (totalItems = 0 →
      (calculatePagination page limit totalItems 10).totalPages = 0 ∧
      (calculatePagination page limit totalItems 10).startItem = 0 ∧
      (calculatePagination page limit totalItems 10).endItem = 0) ∧
    ((calculatePagination 1 10 0 10).totalPages = 0 ∧
      (calculatePagination 1 10 0 10).hasNextPage = false ∧
      (calculatePagination 1 10 0 10).startItem = 0 ∧
      (calculatePagination 1 10 0 10).endItem = 0) ∧
    ((calculatePagination 2 10 95 10).currentPage = 2 ∧
      (calculatePagination 2 10 95 10).totalPages = 10 ∧
      (calculatePagination 2 10 95 10).startItem = 11 ∧
      (calculatePagination 2 10 95 10).endItem = 20 ∧
      (calculatePagination 2 10 95 10).hasNextPage = true ∧
      (calculatePagination 2 10 95 10).hasPrevPage = true) := by
  have hml : max 1 limit = limit := max_eq_right hl
  have hmt : max 0 totalItems = totalItems := max_eq_right ht
  have hL : 1 ≤ limit.toNat := by omega
  refine ⟨?_, ?_, ?_, by decide, by decide⟩
  · simp only [calculatePagination, hml, hmt]
    rw [ceilPages_eq_nat_ceil _ _ hL]
  · simp [calculatePagination]
  · intro h0
    subst h0
    simp [calculatePagination, hml]
    exact Nat.div_eq_of_lt (by omega)

/-- Witness for `calculatePagination_invariants` at
`page = 2`, `limit = 10`, `totalItems = 95`. -/
theorem calculatePagination_invariants_witness :
    (calculatePagination 2 10 95 10).hasNextPage = true ↔
      (calculatePagination 2 10 95 10).currentPage <
        (calculatePagination 2 10 95 10).totalPages :=
  (calculatePagination_invariants 2 10 95 (by decide) (by decide)
    (by decide)).2.1

/-- Telescoping sum of truncated differences of a monotone `Nat` function. -/
theorem sum_sub_telescope (f : Nat → Nat) (hf : Monotone f) (P : Nat) :
    ∑ p in Finset.Icc 1 P, (f p - f (p - 1)) = f P - f 0 := by
  induction P with
  | zero => simp
  | succ P ih =>
    rw [Finset.sum_Icc_succ_top (by omega : 1 ≤ P + 1), ih]
    have h1 : f 0 ≤ f P := hf (by omega)
    have h2 : f P ≤ f (P + 1) := hf (by omega)
    have h3 : P + 1 - 1 = P := by omega
    rw [h3]
    omega

/-- Evaluation of `itemsOnCurrentPage` at a page index that is within the
page range (`(p - 1) * L < N`). -/
theorem itemsOnCurrentPage_eval (p L N : Nat) (hp : 1 ≤ p) (hL : 1 ≤ L)
    (hN : 0 < N) (hlt : (p - 1) * L < N) :
    (calculatePagination (p : Int) (L : Int) (N : Int) 10).itemsOnCurrentPage
      = min (p * L) N - (p - 1) * L := by
  have h1 : (1 : Int) ≤ (p : Int) := by exact_mod_cast hp
  have h2 : (1 : Int) ≤ (L : Int) := by exact_mod_cast hL
  have h3 : (0 : Int) ≤ (N : Int) := Int.natCast_nonneg N
  have hmul : p * L = (p - 1) * L + L := by
    cases p with
    | zero => omega
    | succ q => simp [Nat.succ_mul]
  simp only [calculatePagination, max_eq_right h1, max_eq_right h2,
    max_eq_right h3, Int.toNat_natCast, if_pos hN]
  omega

/-- C4: for every `totalItems ≥ 0` and `limit ≥ 1`, summing
`itemsOnCurrentPage` of `calculatePagination` over pages `1 .. totalPages`
yields exactly `totalItems`: the per-page item counts partition the result
set. -/
theorem calculatePagination_partition (L N : Nat) (hL : 1 ≤ L) :
    ∑ p in Finset.Icc 1
        ((calculatePagination 1 (L : Int) (N : Int) 10).totalPages),
      (calculatePagination (p : Int) (L : Int) (N : Int) 10).itemsOnCurrentPage
      = N := by
  have h2 : (1 : Int) ≤ (L : Int) := by exact_mod_cast hL
  have h3 : (0 : Int) ≤ (N : Int) := Int.natCast_nonneg N
  have hP : (calculatePagination 1 (L : Int) (N : Int) 10).totalPages
      = (N + L - 1) / L := by
    simp only [calculatePagination, max_eq_right h2, max_eq_right h3,
      Int.toNat_natCast]
  rw [hP]
  by_cases hN : N = 0
  · subst hN
    have h0 : (0 + L - 1) / L = 0 := by
      have := (ceilPages_le_iff 0 L 0 hL).mpr (by omega)
      omega
    rw [h0]
    simp
  · have hNpos : 0 < N := by omega
    have hcongr : ∀ p ∈ Finset.Icc 1 ((N + L - 1) / L),
        (calculatePagination (p : Int) (L : Int) (N : Int) 10).itemsOnCurrentPage
          = min (p * L) N - min ((p - 1) * L) N := by
      intro p hmem
      rw [Finset.mem_Icc] at hmem
      have hlt : (p - 1) * L < N := by
        have := (lt_ceilPages_iff N L (p - 1) hL).mp (by omega)
        exact this
      have hmin : min ((p - 1) * L) N = (p - 1) * L := min_eq_left (by omega)
      rw [itemsOnCurrentPage_eval p L N hmem.1 hL hNpos hlt, hmin]
    rw [Finset.sum_congr rfl hcongr]
    have hmono : Monotone (fun p => min (p * L) N) := by
      intro a b hab
      exact min_le_min (Nat.mul_le_mul_right L hab) le_rfl
    rw [sum_sub_telescope (fun p => min (p * L) N) hmono]
    have hNle : N ≤ ((N + L - 1) / L) * L :=
      (ceilPages_le_iff N L _ hL).mp le_rfl
    simp only [Nat.zero_mul]
    omega

/-- Witness for `calculatePagination_partition` at `limit = 10`,
`totalItems = 95`. -/
theorem calculatePagination_partition_witness :
    ∑ p in Finset.Icc 1
        ((calculatePagination 1 (10 : Int) (95 : Int) 10).totalPages),
      (calculatePagination (p : Int) (10 : Int) (95 : Int)
        10).itemsOnCurrentPage = 95 :=
  calculatePagination_partition 10 95 (by decide)

/-! ## Shared string and digit helpers

Strings are `List Char`; `s2l` turns a Lean string literal into that
representation.  `natDigits` is the decimal rendering JavaScript template
interpolation gives a non-negative integer; it is defined with explicit
fuel so that it reduces in the kernel. -/

deriving instance DecidableEq for Except

/-- Conversion of a literal to the `List Char` string representation. -/
def s2l (s : String) : List Char := s.toList

/-- Decimal digit character of `d` (for `d ≤ 9`). -/
def digitChar (d : Nat) : Char :=
  match d with
  | 0 => '0' | 1 => '1' | 2 => '2' | 3 => '3' | 4 => '4'
  | 5 => '5' | 6 => '6' | 7 => '7' | 8 => '8' | _ => '9'

/-- Fuelled decimal rendering; `fuel` bounds the number of digits emitted. -/
def natDigitsGo (fuel n : Nat) : List Char :=
  match fuel with
  | 0 => []
  | fuel + 1 =>
    if n < 10 then [digitChar n]
    else natDigitsGo fuel (n / 10) ++ [digitChar (n % 10)]

/-- Decimal rendering of a natural number, as JavaScript string
interpolation produces it (`fuel = n + 1` always suffices). -/
def natDigits (n : Nat) : List Char := natDigitsGo (n + 1) n

/-- Value denoted by a digit string (decoder used to prove `natDigits`
injective). -/
def digitsVal (l : List Char) : Nat :=
  l.foldl (fun acc c => 10 * acc + (c.toNat - 48)) 0

theorem digitChar_toNat (d : Nat) (hd : d < 10) :
    (digitChar d).toNat = 48 + d := by
  interval_cases d <;> rfl

theorem digitsVal_append_digit (l : List Char) (c : Char) :
    digitsVal (l ++ [c]) = 10 * digitsVal l + (c.toNat - 48) := by
  simp [digitsVal, List.foldl_append]

theorem digitsVal_natDigitsGo (fuel : Nat) :
    ∀ n, n < 10 ^ fuel → digitsVal (natDigitsGo fuel n) = n := by
  induction fuel with
  | zero =>
    intro n h
    have hn : n = 0 := by omega
    subst hn
    rfl
  | succ fuel ih =>
    intro n h
    by_cases h10 : n < 10
    · simp only [natDigitsGo, if_pos h10]
      have := digitChar_toNat n h10
      simp [digitsVal, this]
    · simp only [natDigitsGo, if_neg h10]
      rw [digitsVal_append_digit]
      have hdiv : n / 10 < 10 ^ fuel := by
        rw [Nat.div_lt_iff_lt_mul (by omega : 0 < 10)]
        calc n < 10 ^ (fuel + 1) := h
        _ = 10 ^ fuel * 10 := by rw [Nat.pow_succ]
      rw [ih (n / 10) hdiv]
      have := digitChar_toNat (n % 10) (Nat.mod_lt n (by omega))
      omega

theorem lt_ten_pow_succ_self (n : Nat) : n < 10 ^ (n + 1) := by
  have h1 : n < 2 ^ n := Nat.lt_two_pow n
  have h2 : 2 ^ n ≤ 10 ^ n := Nat.pow_le_pow_left (by omega) n
  have h3 : 10 ^ n ≤ 10 ^ (n + 1) := Nat.pow_le_pow_right (by omega) (by omega)
  omega

theorem digitsVal_natDigits (n : Nat) : digitsVal (natDigits n) = n :=
  digitsVal_natDigitsGo (n + 1) n (lt_ten_pow_succ_self n)

theorem natDigits_injective : Function.Injective natDigits := by
  intro a b hab
  have ha := digitsVal_natDigits a
  have hb := digitsVal_natDigits b
  rw [← ha, ← hb, hab]

theorem natDigitsGo_chars (fuel : Nat) :
    ∀ n c, c ∈ natDigitsGo fuel n → c ∈ s2l "0123456789" := by
  induction fuel with
  | zero => intro n c h; simp [natDigitsGo] at h
  | succ fuel ih =>
    intro n c h
    by_cases h10 : n < 10
    · simp only [natDigitsGo, if_pos h10, List.mem_singleton] at h
      subst h
      interval_cases n <;> decide
    · simp only [natDigitsGo, if_neg h10, List.mem_append,
        List.mem_singleton] at h
      rcases h with h | h
      · exact ih (n / 10) c h
      · subst h
        have h9 : n % 10 < 10 := Nat.mod_lt n (by omega)
        revert h9
        generalize n % 10 = m
        intro h9
        interval_cases m <;> decide

theorem natDigitsGo_length (fuel : Nat) :
    ∀ n k, 1 ≤ k → n < 10 ^ k → (natDigitsGo fuel n).length ≤ k := by
  induction fuel with
  | zero => intro n k h1 _; simp [natDigitsGo]
  | succ fuel ih =>
    intro n k h1 hk
    by_cases h10 : n < 10
    · simp [natDigitsGo, if_pos h10]
      omega
    · simp only [natDigitsGo, if_neg h10, List.length_append,
        List.length_singleton]
      have hk2 : 2 ≤ k := by
        by_contra hcon
        have : k = 1 := by omega
        subst this
        simp at hk
        omega
      have hdiv : n / 10 < 10 ^ (k - 1) := by
        rw [Nat.div_lt_iff_lt_mul (by omega : 0 < 10)]
        have h5 : 10 ^ (k - 1 + 1) = 10 ^ (k - 1) * 10 := by
          rw [Nat.pow_succ]
        have h6 : k - 1 + 1 = k := by omega
        rw [h6] at h5
        omega
      have := ih (n / 10) (k - 1) (by omega) hdiv
      omega

theorem natDigits_nonempty (n : Nat) : natDigits n ≠ [] := by
  unfold natDigits natDigitsGo
  by_cases h10 : n < 10
  · simp [if_pos h10]
  · simp [if_neg h10]

/-! ## Query spec builder
(src/services/movie.service.js `getAllMovies` lines 27-146, together with
the controller step src/controllers/movie.controller.js
`handleGetAllMovies` lines 20-55, and the validator
src/utils/pagination.js `validatePaginationParams` lines 209-244.) -/

/-- Value of `parseInt` applied to a supplied request parameter: either a
number (`int`) or `NaN` (`nan`).  An absent parameter is `Option.none` at
the use sites. -/
inductive JsNum where
  | nan : JsNum
  | int : Int → JsNum
  deriving Repr, DecidableEq

/-- JavaScript truthiness of a possibly-undefined string value: `undefined`
and the empty string are falsy. -/
def jsTruthyStr : Option (List Char) → Bool
  | none => false
  | some s => !s.isEmpty

/-- JavaScript truthiness of a possibly-undefined number: `undefined`,
`NaN` and `0` are falsy. -/
def jsTruthyNum : Option JsNum → Bool
  | none => false
  | some .nan => false
  | some (.int n) => n != 0

/-- Result of `validatePaginationParams` (src/utils/pagination.js lines
238-243).  The returned object has no `offset` member; reading
`validatedPagination.offset` at a call site therefore yields `undefined`. -/
structure PaginationValidation where
  isValid : Bool
  errors : List (List Char)
  page : Int
  limit : Int
  deriving Repr, DecidableEq

/-- Page block of `validatePaginationParams` (src/utils/pagination.js
lines 217-224): the error collected for the parameter, if any, and the
sanitized value (default 1). -/
def validatePageParam : Option JsNum → Option (List Char) × Int
  | none => (none, 1)
  | some .nan => (some (s2l "Page must be a positive integer"), 1)
  | some (.int n) =>
    if n < 1 then (some (s2l "Page must be a positive integer"), 1)
    else (none, n)

/-- Limit block of `validatePaginationParams` (src/utils/pagination.js
lines 227-236): the error collected for the parameter, if any, and the
sanitized value (default 10). -/
def validateLimitParam (maxLimit : Nat) : Option JsNum → Option (List Char) × Int
  | none => (none, 10)
  | some .nan => (some (s2l "Limit must be a positive integer"), 10)
  | some (.int n) =>
    if n < 1 then (some (s2l "Limit must be a positive integer"), 10)
    else if (maxLimit : Int) < n then
      (some (s2l "Limit cannot exceed " ++ natDigits maxLimit), 10)
    else (none, n)

/-- Embedding of `validatePaginationParams({page, limit}, maxLimit)`
(src/utils/pagination.js lines 209-244).  `parseInt` of a value that is
already a number is the identity (`NaN` stays `NaN`), so each parameter is
an optional `JsNum`.  The sanitized defaults are `page = 1`, `limit = 10`;
a parameter that fails its check leaves the default in place while its
error message is collected. -/
def validatePaginationParams (page limit : Option JsNum) (maxLimit : Nat) :
    PaginationValidation :=
  let pageRes := validatePageParam page
  let limitRes := validateLimitParam maxLimit limit
  let errors := pageRes.1.toList ++ limitRes.1.toList
  { isValid := errors.isEmpty
    errors := errors
    page := pageRes.2
    limit := limitRes.2 }

/-- One WHERE-clause predicate of the listing query, as `getAllMovies`
pushes it (src/services/movie.service.js lines 66-101). -/
inductive QueryCondition where
  | genreIs : List Char → QueryCondition
  | directorIs : List Char → QueryCondition
  | yearIs : Option JsNum → QueryCondition
  | searchLike : List Char → QueryCondition
  deriving Repr, DecidableEq

/-- Allow-list of sortable fields (src/services/movie.service.js line
104). -/
def validSortFields : List (List Char) :=
  [s2l "title", s2l "release_year", s2l "rating", s2l "created_at",
    s2l "view_count"]

/-- Options object handed to `getAllMovies` (after the controller has
assembled it). -/
structure MovieQueryOptions where
  genre : Option (List Char)
  director : Option (List Char)
  year : Option JsNum
  search : Option (List Char)
  sortBy : Option (List Char)
  sortOrder : Option (List Char)
  page : Option JsNum
  limit : Option JsNum
  deriving Repr, DecidableEq

/-- Deterministic content of the SQL query `getAllMovies` issues to the
storage layer: filter predicates, the ORDER BY directive, and the
LIMIT/OFFSET parameters. -/
structure ListingQueryPlan where
  conditions : List QueryCondition
  sortField : List Char
  sortAsc : Bool
  limitParam : Option Int
  offsetParam : Option Int
  deriving Repr, DecidableEq

/-- Embedding of the query construction in `getAllMovies`
(src/services/movie.service.js lines 27-128).  Notes kept from the source:

* filters are pushed only for truthy option values (lines 66-94);
* `sortBy` falls back to `created_at` unless it is literally in the
  allow-list; `sortOrder` gives ascending order only on a strict
  `=== 'asc'` comparison (lines 104-107);
* the service re-validates `options.page`/`options.limit` and uses the
  sanitized values for LIMIT (lines 30-34 and 117-125); the validation
  result has no `offset` member, so `validatedPagination.offset` is
  `undefined` and the OFFSET branch never fires;
* nothing in the function consults `validatedPagination.isValid` or
  `validatedPagination.errors`: the query is issued unconditionally. -/
def getAllMoviesPlan (o : MovieQueryOptions) : ListingQueryPlan :=
  let v := validatePaginationParams o.page o.limit 100
  let conditions :=
    (if jsTruthyStr o.genre then [QueryCondition.genreIs (o.genre.getD [])]
      else []) ++
    (if jsTruthyStr o.director then
      [QueryCondition.directorIs (o.director.getD [])] else []) ++
    (if jsTruthyNum o.year then [QueryCondition.yearIs o.year] else []) ++
    (if jsTruthyStr o.search then
      [QueryCondition.searchLike (o.search.getD [])] else [])
  let sortField :=
    match o.sortBy with
    | some s => if validSortFields.contains s then s else s2l "created_at"
    | none => s2l "created_at"
  { conditions := conditions
    sortField := sortField
    sortAsc := decide (o.sortOrder = some (s2l "asc"))
    limitParam := if v.limit != 0 then some v.limit else none
    offsetParam := none }

/-- Raw listing request as `handleGetAllMovies` destructures it
(src/controllers/movie.controller.js lines 23-32): `page` and `limit` hold
the value of `parseInt` on the supplied parameter, or the numeric
destructuring default (`1` resp. `10`) when the parameter is absent;
`year` holds `year ? parseInt(year) : undefined` (line 44). -/
structure ListingRequest where
  genre : Option (List Char)
  director : Option (List Char)
  year : Option JsNum
  search : Option (List Char)
  sortBy : Option (List Char)
  sortOrder : Option (List Char)
  page : JsNum
  limit : JsNum
  deriving Repr, DecidableEq

/-- Embedding of the controller step of the listing pipeline
(src/controllers/movie.controller.js lines 34-55): the controller
validates `{page, limit}`, builds the options object from the sanitized
values — never consulting `isValid` or `errors` — and calls
`getAllMovies`.  The composite returns the storage query the pipeline
issues. -/
def handleGetAllMoviesPlan (q : ListingRequest) : ListingQueryPlan :=
  let v1 := validatePaginationParams (some q.page) (some q.limit) 100
  getAllMoviesPlan
    { genre := q.genre
      director := q.director
      year := q.year
      search := q.search
      sortBy := q.sortBy
      sortOrder := q.sortOrder
      page := some (.int v1.page)
      limit := some (.int v1.limit) }

/-- Listing request with every parameter absent (only the numeric
destructuring defaults for page and limit). -/
def defaultListingRequest : ListingRequest :=
  { genre := none, director := none, year := none, search := none,
    sortBy := none, sortOrder := none, page := .int 1, limit := .int 10 }

/-- ASCII fragment of JavaScript `String.prototype.toLowerCase`, used to
state case-insensitive comparison. -/
def asciiToLower (c : Char) : Char :=
  if 'A' ≤ c ∧ c ≤ 'Z' then Char.ofNat (c.toNat + 32) else c

/-- C6 counterexample: `sortOrder = "ASC"` equals `"asc"` under
case-insensitive comparison, yet the issued query sorts descending — the
source compares with a strict, case-sensitive `=== 'asc'`, so the claimed
case-insensitive comparison does not hold. -/
theorem sortOrder_caseSensitive_counterexample :
    (s2l "ASC").map asciiToLower = s2l "asc" ∧
    (handleGetAllMoviesPlan
      { defaultListingRequest with sortOrder := some (s2l "ASC") }).sortAsc
      = false := by
  decide

/-- C6 (amended): the effective sort field is `sortBy` when it is in the
allow-list `{title, release_year, rating, created_at, view_count}` and
`created_at` otherwise (a silent fallback, never an error), and the order
is ascending exactly when `sortOrder` is literally the lowercase string
`asc` — the comparison is case-sensitive, so `sortOrder=UP`, any typo, and
any other capitalization of `asc` all yield descending order. -/
theorem getAllMovies_sort_directive (o : MovieQueryOptions) :
    (getAllMoviesPlan o).sortField ∈ validSortFields ∧
    (∀ s, o.sortBy = some s → s ∈ validSortFields →
      (getAllMoviesPlan o).sortField = s) ∧
    (∀ s, o.sortBy = some s → s ∉ validSortFields →
      (getAllMoviesPlan o).sortField = s2l "created_at") ∧
    (o.sortBy = none → (getAllMoviesPlan o).sortField = s2l "created_at") ∧
    ((getAllMoviesPlan o).sortAsc = true ↔ o.sortOrder = some (s2l "asc")) :=
  by
  refine ⟨?_, ?_, ?_, ?_, ?_⟩
  · cases hsb : o.sortBy with
    | none =>
      simp only [getAllMoviesPlan, hsb]
      decide
    | some s =>
      by_cases hmem : s ∈ validSortFields
      · simp [getAllMoviesPlan, hsb, hmem]
      · simp only [getAllMoviesPlan, hsb]
        simp [hmem]
        decide
  · intro s hs hmem
    simp [getAllMoviesPlan, hs, hmem]
  · intro s hs hmem
    simp [getAllMoviesPlan, hs, hmem]
  · intro h
    simp [getAllMoviesPlan, h]
  · simp [getAllMoviesPlan]

/-- Invalid supplied limit parameter in the sense of the claim:
non-numeric (`NaN` after `parseInt`), below 1, or above the configured
maximum 100. -/
def invalidLimitNum : JsNum → Bool
  | .nan => true
  | .int n => decide (n < 1) || decide ((100 : Int) < n)

/-- Invalid supplied page parameter: non-numeric or below 1. -/
def invalidPageNum : JsNum → Bool
  | .nan => true
  | .int n => decide (n < 1)

/-- Validation verdict is negative whenever the limit block collected an
error. -/
theorem validate_isValid_of_limit_err (page limit : Option JsNum)
    (maxLimit : Nat) (msg : List Char)
    (h : (validateLimitParam maxLimit limit).1 = some msg) :
    (validatePaginationParams page limit maxLimit).isValid = false := by
  show ((validatePageParam page).1.toList ++
    (validateLimitParam maxLimit limit).1.toList).isEmpty = false
  rw [h]
  cases hp2 : (validatePageParam page).1 <;> rfl

/-- Validation verdict is negative whenever the page block collected an
error. -/
theorem validate_isValid_of_page_err (page limit : Option JsNum)
    (maxLimit : Nat) (msg : List Char)
    (h : (validatePageParam page).1 = some msg) :
    (validatePaginationParams page limit maxLimit).isValid = false := by
  show ((validatePageParam page).1.toList ++
    (validateLimitParam maxLimit limit).1.toList).isEmpty = false
  rw [h]
  rfl

/-- Composite pipeline restated through the two sanitizing blocks (pure
unfolding). -/
theorem handleGetAllMoviesPlan_sanitized (q : ListingRequest) :
    handleGetAllMoviesPlan q = getAllMoviesPlan
      { genre := q.genre, director := q.director, year := q.year,
        search := q.search, sortBy := q.sortBy, sortOrder := q.sortOrder,
        page := some (.int (validatePageParam (some q.page)).2),
        limit := some (.int (validateLimitParam 100 (some q.limit)).2) } :=
  rfl

/-- C7 counterexample: for a listing request with `limit = -5`, the
validator reports the error, but the pipeline issues exactly the same
storage query as the all-defaults request (with the silently sanitized
`LIMIT 10`) instead of failing closed. -/
theorem listingPipeline_fail_open_counterexample :
    (validatePaginationParams (some (JsNum.int 1)) (some (JsNum.int (-5)))
      100).isValid = false ∧
    handleGetAllMoviesPlan
      { defaultListingRequest with limit := JsNum.int (-5) } =
      handleGetAllMoviesPlan defaultListingRequest ∧
    (handleGetAllMoviesPlan
      { defaultListingRequest with limit := JsNum.int (-5) }).limitParam =
      some 10 := by
  decide

/-- C7 (amended): for every listing request with a non-numeric, negative
(or over-100) page or limit parameter, `validatePaginationParams` does
collect a validation error (`isValid = false`), but neither the controller
nor `getAllMovies` consults that flag: the pipeline issues the same
storage query as if the offending parameter had its sanitized default
(`limit = 10`, `page = 1`) and returns its result — it fails open, not
closed. -/
theorem listingPipeline_silently_defaults (q : ListingRequest) :
    (invalidLimitNum q.limit = true →
      (validatePaginationParams (some q.page) (some q.limit) 100).isValid
        = false ∧
      handleGetAllMoviesPlan q =
        handleGetAllMoviesPlan { q with limit := JsNum.int 10 }) ∧
    (invalidPageNum q.page = true →
      (validatePaginationParams (some q.page) (some q.limit) 100).isValid
        = false ∧
      handleGetAllMoviesPlan q =
        handleGetAllMoviesPlan { q with page := JsNum.int 1 }) := by
  constructor
  · intro h
    have hlim : ∃ msg, validateLimitParam 100 (some q.limit) =
        (some msg, 10) := by
      cases hl : q.limit with
      | nan => exact ⟨_, rfl⟩
      | int n =>
        simp only [invalidLimitNum, hl, Bool.or_eq_true,
          decide_eq_true_eq] at h
        rcases h with h | h
        · exact ⟨s2l "Limit must be a positive integer",
            by simp [validateLimitParam, h]⟩
        · have h1 : ¬ n < 1 := by omega
          exact ⟨s2l "Limit cannot exceed " ++ natDigits 100,
            by simp [validateLimitParam, h1, h]⟩
    obtain ⟨msg, hlim⟩ := hlim
    refine ⟨validate_isValid_of_limit_err _ _ _ msg (by rw [hlim]), ?_⟩
    rw [handleGetAllMoviesPlan_sanitized q,
      handleGetAllMoviesPlan_sanitized { q with limit := JsNum.int 10 },
      hlim]
    rfl
  · intro h
    have hpg : validatePageParam (some q.page) =
        (some (s2l "Page must be a positive integer"), 1) := by
      cases hl : q.page with
      | nan => rfl
      | int n =>
        simp only [invalidPageNum, hl, decide_eq_true_eq] at h
        simp [validatePageParam, h]
    refine ⟨validate_isValid_of_page_err _ _ _ _ (by rw [hpg]), ?_⟩
    rw [handleGetAllMoviesPlan_sanitized q,
      handleGetAllMoviesPlan_sanitized { q with page := JsNum.int 1 },
      hpg]
    rfl

/-- Closed instance of `listingPipeline_silently_defaults` at
`limit = -5`. -/
theorem listingPipeline_silently_defaults_witness :
    (validatePaginationParams (some (JsNum.int 1)) (some (JsNum.int (-5)))
      100).isValid = false ∧
    handleGetAllMoviesPlan
      { defaultListingRequest with limit := JsNum.int (-5) } =
      handleGetAllMoviesPlan
        { defaultListingRequest with limit := JsNum.int 10 } :=
  (listingPipeline_silently_defaults
    { defaultListingRequest with limit := JsNum.int (-5) }).1 (by decide)

/-! ## Slug generator (src/utils/slugGenerator.js) -/

/-- Lowercase-alphanumeric slug characters, `[a-z0-9]`. -/
def isLowerAlnum (c : Char) : Bool :=
  ('a' ≤ c && c ≤ 'z') || ('0' ≤ c && c ≤ '9')

/-- ASCII decimal digit test. -/
def isAsciiDigit (c : Char) : Bool := '0' ≤ c && c ≤ '9'

/-- Code points matched by the regular-expression class `\s` (and removed
by `String.prototype.trim`): ASCII whitespace, NBSP, the Unicode space
separators, line/paragraph separators and the BOM. -/
def jsWhitespaceChars : List Char :=
  [' ', '\t', '\n', '\r', '\x0b', '\x0c', '\u00A0', '\u1680',
    '\u2000', '\u2001', '\u2002', '\u2003', '\u2004', '\u2005',
    '\u2006', '\u2007', '\u2008', '\u2009', '\u200A', '\u2028',
    '\u2029', '\u202F', '\u205F', '\u3000', '\uFEFF']

/-- Whitespace in the JavaScript `\s` sense. -/
def isJsWs (c : Char) : Bool := jsWhitespaceChars.contains c

/-- Characters kept by `replace(/[^a-z0-9\s-]/g, '')` after lower-casing:
lowercase alphanumerics, whitespace and the hyphen. -/
def keepSlugChar (c : Char) : Bool := isLowerAlnum c || isJsWs c || c == '-'

/-- Embedding of `String.prototype.trim`: whitespace stripped from both
ends. -/
def jsTrim (l : List Char) : List Char :=
  ((l.dropWhile isJsWs).reverse.dropWhile isJsWs).reverse

/-- Worker for run collapsing: each maximal run of characters satisfying
`p` is replaced by the single character `rep`; the flag records whether
the previous input character was part of a run. -/
def collapseRunsGo (p : Char → Bool) (rep : Char) : Bool → List Char → List Char
  | _, [] => []
  | prev, c :: cs =>
    if p c then
      if prev then collapseRunsGo p rep true cs
      else rep :: collapseRunsGo p rep true cs
    else c :: collapseRunsGo p rep false cs

/-- Embedding of `replace(/X+/g, rep)` for a character class `X`: every
maximal run of `X`-characters becomes one `rep`. -/
def collapseRuns (p : Char → Bool) (rep : Char) (l : List Char) : List Char :=
  collapseRunsGo p rep false l

/-- Removal of the single leading hyphen the anchor `^-` can match. -/
def dropOneLeadingHyphen (l : List Char) : List Char :=
  match l with
  | '-' :: t => t
  | _ => l

/-- Removal of the single trailing hyphen the anchor `-$` can match. -/
def dropOneTrailingHyphen (l : List Char) : List Char :=
  match l.reverse with
  | '-' :: t => t.reverse
  | _ => l

/-- Embedding of `replace(/^-|-$/g, '')`: one leading and one trailing
hyphen removed (the global regex matches at most once at each end). -/
def stripEdgeHyphens (l : List Char) : List Char :=
  dropOneTrailingHyphen (dropOneLeadingHyphen l)

/-- Normalization pipeline of `generateMovieSlug`
(src/utils/slugGenerator.js lines 21-27): lower-case, trim, strip
characters outside `[a-z0-9\s-]`, whitespace runs to single hyphens,
hyphen runs collapsed, edge hyphens removed.  `asciiToLower` models
`toLowerCase` on the code points that can survive the subsequent character
filter (non-ASCII code points with ASCII lower-case images, such as
U+212A, are not modelled). -/
def normalizeTitle (title : List Char) : List Char :=
  stripEdgeHyphens
    (collapseRuns (fun c => c == '-') '-'
      (collapseRuns isJsWs '-'
        ((jsTrim (title.map asciiToLower)).filter keepSlugChar)))

/-- Embedding of the regex replacement that deletes `-[^-]*$` (the last
hyphen and everything after it): everything from the last hyphen
on is removed; a hyphen-free string is unchanged. -/
def dropLastHyphenSegment (l : List Char) : List Char :=
  match l.reverse.dropWhile (fun c => c != '-') with
  | '-' :: t => t.reverse
  | _ => l

/-- Embedding of the length limit (src/utils/slugGenerator.js lines
30-32): strings longer than 50 are cut at 50 and trimmed back at the last
hyphen. -/
def truncateSlug (l : List Char) : List Char :=
  if 50 < l.length then dropLastHyphenSegment (l.take 50) else l

/-- JavaScript truthiness of the optional numeric `movieId` argument:
`null`/`undefined` and `0` are falsy. -/
def jsTruthyId : Option Nat → Bool
  | none => false
  | some m => m != 0

/-- Embedding of `generateMovieSlug(title, movieId)`
(src/utils/slugGenerator.js lines 15-45).  `ts` is the value of
`Date.now()` observed if the empty-slug fallback fires with no id (ECMA-262
bounds a time value by 8.64e15 in magnitude).  A thrown `Error` is the
`Except.error` case; the non-string-title guard is outside the model since
the embedded titles are always strings. -/
def generateMovieSlug (title : List Char) (movieId : Option Nat) (ts : Nat) :
    Except (List Char) (List Char) :=
  if title.isEmpty then
    .error (s2l "Title is required for slug generation")
  else
    let slug0 := normalizeTitle title
    let slug1 := truncateSlug slug0
    let slug2 :=
      if jsTruthyId movieId then slug1 ++ '-' :: natDigits (movieId.getD 0)
      else slug1
    if slug2.isEmpty then
      .ok (if jsTruthyId movieId then s2l "movie-" ++ natDigits (movieId.getD 0)
        else s2l "movie-" ++ natDigits ts)
    else .ok slug2

mutual

/-- State of the slug regular expression `^[a-z0-9]+(?:-[a-z0-9]+)*$`
expecting the start of a segment (at least one `[a-z0-9]`). -/
def slugSegStart : List Char → Bool
  | [] => false
  | c :: cs => isLowerAlnum c && slugSegRest cs

/-- State of the slug regular expression inside a segment: more segment
characters, a hyphen opening a new segment, or the end. -/
def slugSegRest : List Char → Bool
  | [] => true
  | c :: cs => if c == '-' then slugSegStart cs else isLowerAlnum c && slugSegRest cs

end

/-- Embedding of `isValidSlug` (src/utils/slugGenerator.js lines 52-61):
the guard rejects falsy values (the empty string), then the pattern
`^[a-z0-9]+(?:-[a-z0-9]+)*$` must match and the length must be at most
100. -/
def isValidSlug (s : List Char) : Bool :=
  if s.isEmpty then false
  else slugSegStart s && decide (s.length ≤ 100)

/-! ## Slug shape lemmas (claim C5 infrastructure) -/

/-- Adjacent characters are never both hyphens. -/
def HyphenApart (a b : Char) : Prop := ¬(a = '-' ∧ b = '-')

/-- Character provenance through run collapsing: every output character is
the replacement or an input character outside the collapsed class. -/
theorem collapseRunsGo_mem (p : Char → Bool) (rep : Char) :
    ∀ (l : List Char) (b : Bool) (c : Char),
      c ∈ collapseRunsGo p rep b l → c = rep ∨ (c ∈ l ∧ p c = false) := by
  intro l
  induction l with
  | nil => intro b c h; simp [collapseRunsGo] at h
  | cons x xs ih =>
    intro b c h
    by_cases hx : p x = true
    · have hmem : c = rep ∨ c ∈ collapseRunsGo p rep true xs := by
        cases b with
        | false =>
          simp only [collapseRunsGo, hx, if_true, Bool.false_eq_true,
            if_false, List.mem_cons] at h
          exact h
        | true =>
          simp only [collapseRunsGo, hx, if_true] at h
          exact Or.inr h
      rcases hmem with h2 | h2
      · exact Or.inl h2
      · rcases ih true c h2 with h3 | h3
        · exact Or.inl h3
        · exact Or.inr ⟨List.mem_cons_of_mem x h3.1, h3.2⟩
    · simp only [collapseRunsGo, hx, Bool.false_eq_true, if_false,
        List.mem_cons] at h
      rcases h with h | h
      · subst h
        exact Or.inr ⟨List.mem_cons_self c xs, by simpa using hx⟩
      · rcases ih false c h with h2 | h2
        · exact Or.inl h2
        · exact Or.inr ⟨List.mem_cons_of_mem x h2.1, h2.2⟩

/-- The hyphen-collapsing pass produces no adjacent hyphens, and in
run-continuation state never begins with a hyphen. -/
theorem collapseHyphens_chain (l : List Char) :
    (∀ b, List.Chain' HyphenApart
      (collapseRunsGo (fun c => c == '-') '-' b l)) ∧
    (collapseRunsGo (fun c => c == '-') '-' true l).head? ≠ some '-' := by
  induction l with
  | nil => exact ⟨fun b => by simp [collapseRunsGo], by simp [collapseRunsGo]⟩
  | cons x xs ih =>
    by_cases hx : x = '-'
    · subst hx
      have hgo : ∀ b, collapseRunsGo (fun c => c == '-') '-' b ('-' :: xs) =
          if b then collapseRunsGo (fun c => c == '-') '-' true xs
          else '-' :: collapseRunsGo (fun c => c == '-') '-' true xs := by
        intro b; cases b <;> simp [collapseRunsGo]
      refine ⟨fun b => ?_, ?_⟩
      · rw [hgo]
        cases b with
        | true => simpa using ih.1 true
        | false =>
          simp only [Bool.false_eq_true, if_false]
          rw [List.chain'_cons']
          refine ⟨fun y hy => ?_, ih.1 true⟩
          intro hcon
          have hy2 := hcon.2
          subst hy2
          exact ih.2 (Option.mem_def.mp hy)
      · rw [hgo true, if_pos rfl]
        exact ih.2
    · have hgo : ∀ b, collapseRunsGo (fun c => c == '-') '-' b (x :: xs) =
          x :: collapseRunsGo (fun c => c == '-') '-' false xs := by
        intro b; cases b <;> simp [collapseRunsGo, hx]
      refine ⟨fun b => ?_, ?_⟩
      · rw [hgo]
        rw [List.chain'_cons']
        exact ⟨fun y _ => fun h2 => hx h2.1, ih.1 false⟩
      · rw [hgo true]
        simp [hx]

theorem dropOneLeadingHyphen_subset (l : List Char) (c : Char)
    (h : c ∈ dropOneLeadingHyphen l) : c ∈ l := by
  unfold dropOneLeadingHyphen at h
  split at h
  · exact List.mem_cons_of_mem _ h
  · exact h

theorem dropOneTrailingHyphen_subset (l : List Char) (c : Char)
    (h : c ∈ dropOneTrailingHyphen l) : c ∈ l := by
  unfold dropOneTrailingHyphen at h
  split at h
  case h_1 t heq =>
    rw [← List.mem_reverse, heq]
    exact List.mem_cons_of_mem _ (List.mem_reverse.mp h)
  case h_2 => exact h

theorem stripEdgeHyphens_subset (l : List Char) (c : Char)
    (h : c ∈ stripEdgeHyphens l) : c ∈ l :=
  dropOneLeadingHyphen_subset l c
    (dropOneTrailingHyphen_subset (dropOneLeadingHyphen l) c h)

/-- After removing one leading hyphen from a hyphen-apart list, the head
is no longer a hyphen, and the chain survives. -/
theorem dropOneLeadingHyphen_good (l : List Char)
    (hch : List.Chain' HyphenApart l) :
    List.Chain' HyphenApart (dropOneLeadingHyphen l) ∧
    (dropOneLeadingHyphen l).head? ≠ some '-' := by
  unfold dropOneLeadingHyphen
  split
  case h_1 t =>
    rw [List.chain'_cons'] at hch
    refine ⟨hch.2, ?_⟩
    intro hhd
    cases ht : t with
    | nil => rw [ht] at hhd; simp at hhd
    | cons y ys =>
      rw [ht] at hhd
      simp only [List.head?_cons, Option.some_inj] at hhd
      subst hhd
      exact hch.1 '-' (by rw [ht]; rfl) ⟨rfl, rfl⟩
  case h_2 hne =>
    refine ⟨hch, ?_⟩
    cases l with
    | nil => simp
    | cons y ys =>
      simp only [List.head?_cons]
      intro hy
      have hy2 : y = '-' := by simpa using hy
      subst hy2
      exact hne ys rfl

/-- After additionally removing one trailing hyphen, neither end is a
hyphen and the chain survives. -/
theorem dropOneTrailingHyphen_good (l : List Char)
    (hch : List.Chain' HyphenApart l) (hhd : l.head? ≠ some '-') :
    List.Chain' HyphenApart (dropOneTrailingHyphen l) ∧
    (dropOneTrailingHyphen l).head? ≠ some '-' ∧
    (dropOneTrailingHyphen l).getLast? ≠ some '-' := by
  have hsymm : ∀ a b : Char, HyphenApart a b → flip HyphenApart a b :=
    fun a b hab => fun hcon => hab ⟨hcon.2, hcon.1⟩
  have hrev : List.Chain' HyphenApart l.reverse :=
    List.chain'_reverse.mpr (List.Chain'.imp hsymm hch)
  unfold dropOneTrailingHyphen
  split
  case h_1 t heq =>
    have hl : l = t.reverse ++ ['-'] := by
      have := congrArg List.reverse heq
      rw [List.reverse_reverse] at this
      rw [this, List.reverse_cons]
    have hcht : List.Chain' HyphenApart t.reverse := by
      have h2 := List.Chain'.take hch t.reverse.length
      rw [hl, List.take_left] at h2
      exact h2
    refine ⟨hcht, ?_, ?_⟩
    · cases htr : t.reverse with
      | nil => simp
      | cons y ys =>
        have hly : l.head? = some y := by
          rw [hl, htr]; rfl
        simp only [List.head?_cons]
        intro hy
        have hy2 : y = '-' := by simpa using hy
        subst hy2
        exact hhd hly
    · rw [List.getLast?_reverse]
      rw [heq] at hrev
      rw [List.chain'_cons'] at hrev
      intro hcon
      cases ht2 : t with
      | nil => rw [ht2] at hcon; simp at hcon
      | cons y ys =>
        rw [ht2] at hcon
        simp only [List.head?_cons, Option.some_inj] at hcon
        subst hcon
        exact hrev.1 '-' (by rw [ht2]; rfl) ⟨rfl, rfl⟩
  case h_2 hne =>
    refine ⟨hch, hhd, ?_⟩
    rw [← List.head?_reverse]
    cases hr : l.reverse with
    | nil => simp
    | cons y ys =>
      simp only [List.head?_cons]
      intro hy
      have hy2 : y = '-' := by simpa using hy
      subst hy2
      exact hne ys hr

/-- The full normalization output: no adjacent hyphens, and neither end is
a hyphen. -/
theorem normalizeTitle_good (t : List Char) :
    List.Chain' HyphenApart (normalizeTitle t) ∧
    (normalizeTitle t).head? ≠ some '-' ∧
    (normalizeTitle t).getLast? ≠ some '-' := by
  unfold normalizeTitle stripEdgeHyphens collapseRuns
  have h1 := (collapseHyphens_chain
    (collapseRuns isJsWs '-'
      ((jsTrim (t.map asciiToLower)).filter keepSlugChar))).1 false
  have h2 := dropOneLeadingHyphen_good _ h1
  have h3 := dropOneTrailingHyphen_good _ h2.1 h2.2
  exact h3

/-- Every character of the normalized title is a lowercase alphanumeric or
a hyphen. -/
theorem normalizeTitle_chars (t : List Char) (c : Char)
    (h : c ∈ normalizeTitle t) : isLowerAlnum c = true ∨ c = '-' := by
  unfold normalizeTitle at h
  have h1 := stripEdgeHyphens_subset _ _ h
  rcases collapseRunsGo_mem _ _ _ _ _ h1 with h2 | h2
  · exact Or.inr h2
  · rcases collapseRunsGo_mem _ _ _ _ _ h2.1 with h3 | h3
    · exact Or.inr h3
    · have hkeep := List.of_mem_filter h3.1
      have hws := h3.2
      simp only [keepSlugChar, Bool.or_eq_true] at hkeep
      rcases hkeep with (hk | hk) | hk
      · exact Or.inl hk
      · rw [hws] at hk; cases hk
      · exact Or.inr (by simpa using hk)

theorem dropWhile_head_false (p : Char → Bool) :
    ∀ (l : List Char) (c : Char) (t : List Char),
      l.dropWhile p = c :: t → p c = false := by
  intro l
  induction l with
  | nil => intro c t h; simp [List.dropWhile] at h
  | cons x xs ih =>
    intro c t h
    rw [List.dropWhile_cons] at h
    by_cases hx : p x = true
    · rw [if_pos hx] at h
      exact ih c t h
    · rw [if_neg hx] at h
      injection h with h1 h2
      subst h1
      simpa using hx

/-- Specification of the last-segment trim: when the input contains a
hyphen, the output is the input up to (and excluding) its last hyphen, and
the removed tail is hyphen-free. -/
theorem dropLastHyphenSegment_spec (l : List Char) (h : '-' ∈ l) :
    ∃ rest, ('-' ∉ rest) ∧ dropLastHyphenSegment l ++ '-' :: rest = l := by
  have hmem : '-' ∈ l.reverse := List.mem_reverse.mpr h
  have hne : l.reverse.dropWhile (fun c => c != '-') ≠ [] := by
    intro h0
    rw [List.dropWhile_eq_nil_iff] at h0
    have := h0 '-' hmem
    simp at this
  cases hd : l.reverse.dropWhile (fun c => c != '-') with
  | nil => exact absurd hd hne
  | cons c t =>
    have hc : (c != '-') = false := dropWhile_head_false _ _ c t hd
    have hc2 : c = '-' := by simpa using hc
    subst hc2
    refine ⟨(l.reverse.takeWhile (fun c => c != '-')).reverse, ?_, ?_⟩
    · intro hmem2
      have := List.mem_takeWhile_imp (List.mem_reverse.mp hmem2)
      simp at this
    · have hsplit := List.takeWhile_append_dropWhile
        (fun c => c != '-') l.reverse
      rw [hd] at hsplit
      have hds : dropLastHyphenSegment l = t.reverse := by
        unfold dropLastHyphenSegment
        rw [hd]
        rfl
      rw [hds]
      have hrev := congrArg List.reverse hsplit
      rw [List.reverse_reverse] at hrev
      have hgoal : (List.takeWhile (fun c => c != '-') l.reverse ++
          '-' :: t).reverse = t.reverse ++ '-' ::
            (List.takeWhile (fun c => c != '-') l.reverse).reverse := by
        rw [List.reverse_append, List.reverse_cons]
        simp [List.append_assoc]
      rw [← hgoal]
      exact hrev

/-- A hyphen-free input is unchanged by the last-segment trim. -/
theorem dropLastHyphenSegment_of_not_mem (l : List Char) (h : '-' ∉ l) :
    dropLastHyphenSegment l = l := by
  unfold dropLastHyphenSegment
  have hnil : l.reverse.dropWhile (fun c => c != '-') = [] := by
    rw [List.dropWhile_eq_nil_iff]
    intro x hx
    have hxl : x ∈ l := List.mem_reverse.mp hx
    simp only [bne_iff_ne, ne_eq]
    intro hxe
    exact h (hxe ▸ hxl)
  rw [hnil]

/-- Shape of the truncated slug: length at most 50, characters drawn from
the input, and no hyphen at either end. -/
theorem truncateSlug_good (l : List Char)
    (hch : List.Chain' HyphenApart l)
    (hhd : l.head? ≠ some '-') (hlast : l.getLast? ≠ some '-') :
    (truncateSlug l).length ≤ 50 ∧
    (∀ c ∈ truncateSlug l, c ∈ l) ∧
    (truncateSlug l).head? ≠ some '-' ∧
    (truncateSlug l).getLast? ≠ some '-' := by
  unfold truncateSlug
  by_cases hlen : 50 < l.length
  · rw [if_pos hlen]
    have hch50 : List.Chain' HyphenApart (l.take 50) := List.Chain'.take hch 50
    have hhd50 : (l.take 50).head? = l.head? := by
      rw [List.head?_take]
      simp
    have hlen50 : (l.take 50).length ≤ 50 := by
      rw [List.length_take]
      omega
    by_cases hh : '-' ∈ l.take 50
    · obtain ⟨rest, hrest, hsplit⟩ := dropLastHyphenSegment_spec (l.take 50) hh
      have hlen2 := congrArg List.length hsplit
      simp only [List.length_append, List.length_cons] at hlen2
      refine ⟨by omega, ?_, ?_, ?_⟩
      · intro c hc
        have hc50 : c ∈ l.take 50 := by
          rw [← hsplit]
          exact List.mem_append_left _ hc
        exact List.mem_of_mem_take hc50
      · cases hdres : dropLastHyphenSegment (l.take 50) with
        | nil => simp
        | cons y ys =>
          have hy : (l.take 50).head? = some y := by
            rw [← hsplit, hdres]
            rfl
          simp only [List.head?_cons]
          intro hcon
          have hy2 : y = '-' := by simpa using hcon
          subst hy2
          exact hhd (by rw [← hhd50, hy])
      · have hchsp : List.Chain' HyphenApart
            (dropLastHyphenSegment (l.take 50) ++ '-' :: rest) := by
          rw [hsplit]
          exact hch50
        rw [List.chain'_append] at hchsp
        intro hcon
        exact hchsp.2.2 '-' (Option.mem_def.mpr hcon) '-' (by rfl) ⟨rfl, rfl⟩
    · rw [dropLastHyphenSegment_of_not_mem _ hh]
      refine ⟨hlen50, fun c hc => List.mem_of_mem_take hc,
        by rw [hhd50]; exact hhd, ?_⟩
      intro hcon
      exact hh (List.mem_of_mem_getLast? (Option.mem_def.mpr hcon))
  · rw [if_neg hlen]
    exact ⟨by omega, fun c hc => hc, hhd, hlast⟩

theorem natDigits_chars_alnum (n : Nat) (c : Char) (hc : c ∈ natDigits n) :
    isLowerAlnum c = true := by
  have h := natDigitsGo_chars (n + 1) n c hc
  have hlit : s2l "0123456789" =
      ['0', '1', '2', '3', '4', '5', '6', '7', '8', '9'] := rfl
  rw [hlit] at h
  fin_cases h <;> decide

/-- Shape of the empty-normalization fallback slug `movie-<digits>`. -/
theorem movieFallback_good (n : Nat) (hn : n < 10 ^ 16) :
    (∀ c ∈ s2l "movie-" ++ natDigits n, isLowerAlnum c = true ∨ c = '-') ∧
    (s2l "movie-" ++ natDigits n).head? ≠ some '-' ∧
    (s2l "movie-" ++ natDigits n).getLast? ≠ some '-' ∧
    (s2l "movie-" ++ natDigits n).length ≤ 50 := by
  have hlit : s2l "movie-" = ['m', 'o', 'v', 'i', 'e', '-'] := rfl
  refine ⟨?_, ?_, ?_, ?_⟩
  · intro c hc
    rcases List.mem_append.mp hc with hc | hc
    · rw [hlit] at hc
      fin_cases hc <;> decide
    · exact Or.inl (natDigits_chars_alnum n c hc)
  · rw [hlit]
    simp
  · rw [hlit, List.getLast?_append]
    cases hg : (natDigits n).getLast? with
    | none =>
      exact absurd (List.getLast?_eq_none_iff.mp hg) (natDigits_nonempty n)
    | some x =>
      have hx := natDigits_chars_alnum n x
        (List.mem_of_mem_getLast? (Option.mem_def.mpr hg))
      have hor : (Option.some x).or
          (['m', 'o', 'v', 'i', 'e', '-'] : List Char).getLast? = some x := rfl
      rw [hor]
      intro hcon
      have hx2 : x = '-' := by simpa using hcon
      subst hx2
      exact absurd hx (by decide)
  · rw [hlit]
    have hlen := natDigitsGo_length (n + 1) n 16 (by omega) hn
    unfold natDigits
    simp only [List.length_append]
    simp only [List.length_cons, List.length_nil]
    omega

/-- Closed form of `generateMovieSlug` for a nonempty title with no id. -/
theorem generateMovieSlug_noId_eq (title : List Char) (ts : Nat)
    (hne : title ≠ []) :
    generateMovieSlug title none ts =
      (if (truncateSlug (normalizeTitle title)).isEmpty then
        Except.ok (s2l "movie-" ++ natDigits ts)
      else Except.ok (truncateSlug (normalizeTitle title))) := by
  cases title with
  | nil => exact absurd rfl hne
  | cons c cs =>
    simp only [generateMovieSlug, List.isEmpty_cons, Bool.false_eq_true,
      if_false, jsTruthyId]

/-- A normalized title longer than 50 characters never truncates to the
empty string. -/
theorem truncateSlug_ne_nil_of_long (title : List Char)
    (hL : 50 < (normalizeTitle title).length) :
    truncateSlug (normalizeTitle title) ≠ [] := by
  obtain ⟨hchn, hhdn, _⟩ := normalizeTitle_good title
  intro hcontra
  unfold truncateSlug at hcontra
  rw [if_pos hL] at hcontra
  by_cases hmem : '-' ∈ (normalizeTitle title).take 50
  · obtain ⟨rest, _, hsplit⟩ := dropLastHyphenSegment_spec _ hmem
    rw [hcontra, List.nil_append] at hsplit
    have hhd : ((normalizeTitle title).take 50).head? = some '-' := by
      rw [← hsplit]
      rfl
    rw [List.head?_take] at hhd
    simp only [if_neg (by omega : ¬ (50 : Nat) = 0)] at hhd
    exact hhdn hhd
  · rw [dropLastHyphenSegment_of_not_mem _ hmem] at hcontra
    have := congrArg List.length hcontra
    rw [List.length_take] at this
    simp only [List.length_nil] at this
    omega

/-- C5 (amended): for every nonempty title (no movie id supplied, and the
`Date.now()` fallback value within the ECMA-262 time range),
`generateMovieSlug` returns a string over `[a-z0-9-]` with no leading or
trailing hyphen and length at most 50; and whenever truncation at 50
characters cuts inside a hyphen-delimited word, the result is the
normalized slug up to its last complete segment (the hyphen-free partial
word is dropped). -/
theorem generateMovieSlug_shape (title : List Char) (ts : Nat)
    (hne : title ≠ []) (hts : ts < 10 ^ 16) :
    ∃ s, generateMovieSlug title none ts = Except.ok s ∧
      (∀ c ∈ s, isLowerAlnum c = true ∨ c = '-') ∧
      s.head? ≠ some '-' ∧ s.getLast? ≠ some '-' ∧ s.length ≤ 50 ∧
      (50 < (normalizeTitle title).length →
        '-' ∈ (normalizeTitle title).take 50 →
        ∃ rest, ('-' ∉ rest) ∧
          s ++ '-' :: rest = (normalizeTitle title).take 50) := by
  obtain ⟨hchn, hhdn, hlastn⟩ := normalizeTitle_good title
  obtain ⟨hlen1, hsub1, hhd1, hlast1⟩ :=
    truncateSlug_good (normalizeTitle title) hchn hhdn hlastn
  rw [generateMovieSlug_noId_eq title ts hne]
  by_cases hemp : (truncateSlug (normalizeTitle title)).isEmpty = true
  · rw [if_pos hemp]
    obtain ⟨hc, hh, hl, hlen⟩ := movieFallback_good ts hts
    refine ⟨_, rfl, hc, hh, hl, hlen, ?_⟩
    intro hL _
    exact absurd (List.isEmpty_iff.mp hemp) (truncateSlug_ne_nil_of_long title hL)
  · rw [if_neg hemp]
    refine ⟨_, rfl, ?_, hhd1, hlast1, hlen1, ?_⟩
    · intro c hc
      exact normalizeTitle_chars title c (hsub1 c hc)
    · intro hL hmem
      obtain ⟨rest, hrest, hsplit⟩ := dropLastHyphenSegment_spec _ hmem
      refine ⟨rest, hrest, ?_⟩
      have htr : truncateSlug (normalizeTitle title) =
          dropLastHyphenSegment ((normalizeTitle title).take 50) := by
        unfold truncateSlug
        rw [if_pos hL]
      rw [htr]
      exact hsplit

/-- Witness for `generateMovieSlug_shape` at the title
`"The Dark Knight"` and timestamp 0. -/
theorem generateMovieSlug_shape_witness :
    ∃ s, generateMovieSlug (s2l "The Dark Knight") none 0 = Except.ok s ∧
      (∀ c ∈ s, isLowerAlnum c = true ∨ c = '-') ∧
      s.head? ≠ some '-' ∧ s.getLast? ≠ some '-' ∧ s.length ≤ 50 ∧
      (50 < (normalizeTitle (s2l "The Dark Knight")).length →
        '-' ∈ (normalizeTitle (s2l "The Dark Knight")).take 50 →
        ∃ rest, ('-' ∉ rest) ∧
          s ++ '-' :: rest = (normalizeTitle (s2l "The Dark Knight")).take 50) :=
  generateMovieSlug_shape (s2l "The Dark Knight") 0 (by decide) (by decide)

/-- C5 counterexample: the empty title is a title string for which
`generateMovieSlug` does not return a slug at all — it throws
`Title is required for slug generation` — so the claim quantified over
every title string fails at the empty string. -/
theorem generateMovieSlug_empty_title_counterexample :
    generateMovieSlug [] none 0 =
      Except.error (s2l "Title is required for slug generation") ∧
    ¬ ∃ s, generateMovieSlug [] none 0 = Except.ok s := by
  refine ⟨rfl, ?_⟩
  intro ⟨s, hs⟩
  rw [show generateMovieSlug [] none 0 =
    Except.error (s2l "Title is required for slug generation") from rfl] at hs
  cases hs

/-- Closed form of `generateMovieSlug` for a nonempty title whose
normalization is empty: with a truthy id the result is the id-suffix
string `-<id>` (the id is appended before the emptiness check, so the
`movie-<id>` fallback branch is dead); with no id the timestamp fallback
fires. -/
theorem generateMovieSlug_empty_norm_eq (title : List Char)
    (m ts : Nat) (hne : title ≠ []) (hnorm : normalizeTitle title = [])
    (hm : m ≠ 0) :
    generateMovieSlug title (some m) ts = Except.ok ('-' :: natDigits m) ∧
    generateMovieSlug title none ts =
      Except.ok (s2l "movie-" ++ natDigits ts) := by
  have htr : truncateSlug (normalizeTitle title) = [] := by
    rw [hnorm]
    rfl
  cases title with
  | nil => exact absurd rfl hne
  | cons c cs =>
    constructor
    · simp only [generateMovieSlug, List.isEmpty_cons, Bool.false_eq_true,
        if_false, jsTruthyId, Option.getD_some]
      rw [htr]
      simp only [List.nil_append]
      have hmbe : (m != 0) = true := by simpa using hm
      rw [hmbe]
      simp
    · simp only [generateMovieSlug, List.isEmpty_cons, Bool.false_eq_true,
        if_false, jsTruthyId]
      rw [htr]
      simp

/-- C8: when the title normalizes to the empty string, the result with a
supplied movie id is `-<id>` — synthetic, derived only from the record's
identity, and identical for any two observed timestamps (deterministic
given the same title and id) — while with no id the result is
`movie-<Date.now()>`, which differs for different timestamps and is
therefore non-repeatable. -/
theorem generateMovieSlug_fallback_determinism (title : List Char)
    (m ts ts2 : Nat) (hne : title ≠ [])
    (hnorm : normalizeTitle title = []) (hm : m ≠ 0) :
    generateMovieSlug title (some m) ts = Except.ok ('-' :: natDigits m) ∧
    generateMovieSlug title (some m) ts =
      generateMovieSlug title (some m) ts2 ∧
    generateMovieSlug title none ts =
      Except.ok (s2l "movie-" ++ natDigits ts) ∧
    (ts ≠ ts2 →
      generateMovieSlug title none ts ≠ generateMovieSlug title none ts2) := by
  obtain ⟨h1, h3⟩ := generateMovieSlug_empty_norm_eq title m ts hne hnorm hm
  obtain ⟨h1b, h3b⟩ := generateMovieSlug_empty_norm_eq title m ts2 hne hnorm hm
  refine ⟨h1, by rw [h1, h1b], h3, ?_⟩
  intro hts hcontra
  rw [h3, h3b] at hcontra
  have := List.append_cancel_left (Except.ok.inj hcontra)
  exact hts (natDigits_injective this)

/-- Witness for `generateMovieSlug_fallback_determinism` at the
all-punctuation title `"!!!"`, id 7 and timestamps 5 and 9. -/
theorem generateMovieSlug_fallback_determinism_witness :
    generateMovieSlug (s2l "!!!") (some 7) 5 =
      Except.ok ('-' :: natDigits 7) ∧
    generateMovieSlug (s2l "!!!") (some 7) 5 =
      generateMovieSlug (s2l "!!!") (some 7) 9 ∧
    generateMovieSlug (s2l "!!!") none 5 =
      Except.ok (s2l "movie-" ++ natDigits 5) ∧
    ((5 : Nat) ≠ 9 →
      generateMovieSlug (s2l "!!!") none 5 ≠
        generateMovieSlug (s2l "!!!") none 9) :=
  generateMovieSlug_fallback_determinism (s2l "!!!") 7 5 9 (by decide)
    (by decide) (by decide)

/-! ## Uniqueness resolver and movie creation
(src/services/movie.service.js `createMovie` lines 225-295 and
`checkSlugExists` lines 303-314; src/utils/slugGenerator.js module
exports.) -/

/-- Names exported by the slugGenerator module
(src/utils/slugGenerator.js `module.exports`, lines 6-92): reading any
other property of the module object yields `undefined`. -/
def slugGeneratorExports : List (List Char) :=
  [s2l "generateMovieSlug", s2l "isValidSlug",
    s2l "extractMovieIdFromSlug", s2l "generateFromMovie"]

/-- Method name `createMovie` invokes to compute the base slug
(src/services/movie.service.js line 236:
`slugGenerator.generateSlug(movieData.title)`). -/
def createMovieBaseSlugCallee : List Char := s2l "generateSlug"

/-- Candidate probed by the uniqueness loop at counter value `k`: the base
slug itself for `k = 0`, and `base-k` afterwards
(src/services/movie.service.js lines 237-244). -/
def slugCandidate (base : List Char) (k : Nat) : List Char :=
  if k = 0 then base else base ++ '-' :: natDigits k

/-- The `while (await checkSlugExists(finalSlug))` loop of `createMovie`,
with the storage oracle `checkSlugExists` modelled as membership in the
finite set `taken` of already-persisted slugs, and explicit fuel (the
pigeonhole argument below shows `taken.length + 1` probes always reach a
free candidate, so the fuel never runs out). -/
def resolveSlugLoop (base : List Char) (taken : List (List Char)) :
    Nat → Nat → List Char
  | k, 0 => slugCandidate base k
  | k, fuel + 1 =>
    if slugCandidate base k ∈ taken then
      resolveSlugLoop base taken (k + 1) fuel
    else slugCandidate base k

/-- Slug-uniqueness resolution of `createMovie`: starting from the base
slug (counter 0), probe `base`, `base-1`, `base-2`, … until a candidate is
not taken. -/
def resolveUniqueSlug (base : List Char) (taken : List (List Char)) :
    List Char :=
  resolveSlugLoop base taken 0 (taken.length + 1)

theorem slugCandidate_injective (base : List Char) :
    Function.Injective (slugCandidate base) := by
  intro i j hij
  unfold slugCandidate at hij
  by_cases hi : i = 0 <;> by_cases hj : j = 0
  · omega
  · rw [if_pos hi, if_neg hj] at hij
    have hlen := congrArg List.length hij
    simp only [List.length_append, List.length_cons] at hlen
    omega
  · rw [if_neg hi, if_pos hj] at hij
    have hlen := congrArg List.length hij
    simp only [List.length_append, List.length_cons] at hlen
    omega
  · rw [if_neg hi, if_neg hj] at hij
    have h2 := List.append_cancel_left hij
    injection h2 with _ h3
    exact natDigits_injective h3

/-- Pigeonhole: among the first `taken.length + 1` candidates some slug is
free. -/
theorem exists_free_candidate (base : List Char)
    (taken : List (List Char)) :
    ∃ j, j ≤ taken.length ∧ slugCandidate base j ∉ taken := by
  by_contra hcon
  push_neg at hcon
  have hsub : ∀ j ∈ Finset.range (taken.length + 1),
      slugCandidate base j ∈ taken.toFinset := by
    intro j hj
    rw [Finset.mem_range] at hj
    exact List.mem_toFinset.mpr (hcon j (by omega))
  have hcard := Finset.card_le_card_of_injOn (slugCandidate base) hsub
    (fun a _ b _ hab => slugCandidate_injective base hab)
  rw [Finset.card_range] at hcard
  have := List.toFinset_card_le taken
  omega

/-- Correctness of the resolution loop: if a free candidate exists within
the fuel window, the loop returns the first free candidate at or after the
current counter. -/
theorem resolveSlugLoop_spec (base : List Char) (taken : List (List Char)) :
    ∀ (fuel k : Nat),
      (∃ j, k ≤ j ∧ j < k + fuel + 1 ∧ slugCandidate base j ∉ taken) →
      ∃ j0, resolveSlugLoop base taken k fuel = slugCandidate base j0 ∧
        k ≤ j0 ∧ slugCandidate base j0 ∉ taken ∧
        ∀ i, k ≤ i → i < j0 → slugCandidate base i ∈ taken := by
  intro fuel
  induction fuel with
  | zero =>
    intro k h
    obtain ⟨j, hj1, hj2, hj3⟩ := h
    have hjk : j = k := by omega
    subst hjk
    exact ⟨j, rfl, le_rfl, hj3, fun i h1 h2 => by omega⟩
  | succ fuel ih =>
    intro k h
    by_cases hk : slugCandidate base k ∈ taken
    · have hrec : ∃ j, k + 1 ≤ j ∧ j < (k + 1) + fuel + 1 ∧
          slugCandidate base j ∉ taken := by
        obtain ⟨j, hj1, hj2, hj3⟩ := h
        have : j ≠ k := fun hjk => hj3 (hjk ▸ hk)
        exact ⟨j, by omega, by omega, hj3⟩
      obtain ⟨j0, hj0eq, hj0ge, hj0free, hj0min⟩ := ih (k + 1) hrec
      refine ⟨j0, ?_, by omega, hj0free, ?_⟩
      · unfold resolveSlugLoop
        rw [if_pos hk]
        exact hj0eq
      · intro i h1 h2
        by_cases hik : i = k
        · exact hik ▸ hk
        · exact hj0min i (by omega) h2
    · refine ⟨k, ?_, le_rfl, hk, fun i h1 h2 => by omega⟩
      unfold resolveSlugLoop
      rw [if_neg hk]

/-- C1: the `createMovie` slug-uniqueness loop (modelled faithfully from
lines 237-244) returns a slug outside the taken set, returns the base slug
unchanged when it is free, and otherwise the first free candidate among
`base-1, base-2, …` in increasing counter order; with base slug
`inception`, two consecutive creations yield `inception` and
`inception-1`.  However, the source computes the base slug by calling
`slugGenerator.generateSlug`, a property the slugGenerator module does not
export (the exported generator is `generateMovieSlug`), so at run time the
base-slug step throws a `TypeError` before the loop can run: the intended
behaviour is witnessed by `generateMovieSlug`, which does map
`"Inception"` to `inception`. -/
theorem createMovie_slug_resolution :
    (createMovieBaseSlugCallee ∉ slugGeneratorExports) ∧
    generateMovieSlug (s2l "Inception") none 0 =
      Except.ok (s2l "inception") ∧
    resolveUniqueSlug (s2l "inception") [] = s2l "inception" ∧
    resolveUniqueSlug (s2l "inception") [s2l "inception"] =
      s2l "inception-1" ∧
    (∀ (base : List Char) (taken : List (List Char)),
      resolveUniqueSlug base taken ∉ taken ∧
      (base ∉ taken → resolveUniqueSlug base taken = base) ∧
      ∃ k, resolveUniqueSlug base taken = slugCandidate base k ∧
        slugCandidate base k ∉ taken ∧
        ∀ i, i < k → slugCandidate base i ∈ taken) := by
  refine ⟨by decide, by decide, by decide, by decide, ?_⟩
  intro base taken
  obtain ⟨j, hj1, hj2⟩ := exists_free_candidate base taken
  have hspec := resolveSlugLoop_spec base taken (taken.length + 1) 0
    ⟨j, by omega, by omega, hj2⟩
  obtain ⟨k, hk1, _, hk3, hk4⟩ := hspec
  have hres : resolveUniqueSlug base taken = slugCandidate base k := hk1
  refine ⟨by rw [hres]; exact hk3, ?_, k, hres, hk3, fun i hik => hk4 i (by omega) hik⟩
  intro hbase
  rw [hres]
  by_cases hk0 : k = 0
  · rw [hk0]
    rfl
  · exact absurd (hk4 0 (by omega) (by omega)) (by simpa [slugCandidate] using hbase)

/-! ## Identifier classification and single-record lookup
(src/controllers/movie.controller.js `handleGetMovieById` lines 111-136,
src/services/movie.service.js `getMovieById` lines 162-191,
src/unnamed validation module `isPositiveInteger` lines 24-26.) -/

/-- Hexadecimal digit test (for the `0x` branch of string-to-number). -/
def isHexDigit (c : Char) : Bool :=
  isAsciiDigit c || ('a' ≤ c && c ≤ 'f') || ('A' ≤ c && c ≤ 'F')

/-- Octal digit test. -/
def isOctDigit (c : Char) : Bool := '0' ≤ c && c ≤ '7'

/-- Binary digit test. -/
def isBinDigit (c : Char) : Bool := c == '0' || c == '1'

/-- One or more decimal digits. -/
def decDigits (l : List Char) : Bool := !l.isEmpty && l.all isAsciiDigit

/-- Optional exponent suffix of a decimal literal: empty, or `e`/`E`, an
optional sign, and one or more digits. -/
def expSuffix : List Char → Bool
  | [] => true
  | c :: cs =>
    (c == 'e' || c == 'E') &&
    (match cs with
      | '+' :: ds => decDigits ds
      | '-' :: ds => decDigits ds
      | ds => decDigits ds)

/-- `StrUnsignedDecimalLiteral` of ECMA-262 string-to-number:
`Infinity`, `digits [. digits?] exp?`, or `. digits exp?`. -/
def strUnsignedDec (l : List Char) : Bool :=
  if l = s2l "Infinity" then true
  else
    let intPart := l.takeWhile isAsciiDigit
    let rest := l.dropWhile isAsciiDigit
    if intPart.isEmpty then
      match rest with
      | '.' :: r2 =>
        !(r2.takeWhile isAsciiDigit).isEmpty &&
          expSuffix (r2.dropWhile isAsciiDigit)
      | _ => false
    else
      match rest with
      | [] => true
      | '.' :: r2 => expSuffix (r2.dropWhile isAsciiDigit)
      | r => expSuffix r

/-- Unsigned numeric string: a hex/octal/binary literal or an unsigned
decimal literal. -/
def strNumericNoSign (l : List Char) : Bool :=
  match l with
  | '0' :: x :: r =>
    if x == 'x' || x == 'X' then !r.isEmpty && r.all isHexDigit
    else if x == 'o' || x == 'O' then !r.isEmpty && r.all isOctDigit
    else if x == 'b' || x == 'B' then !r.isEmpty && r.all isBinDigit
    else strUnsignedDec l
  | _ => strUnsignedDec l

/-- Embedding of `isNaN(s)` for a string argument: ECMA-262 coerces via
`Number(s)` (trim whitespace; the empty remainder is 0; otherwise an
optionally signed numeric literal parses to a number and anything else is
`NaN`). -/
def jsStringToNumberIsNaN (s : List Char) : Bool :=
  let t := jsTrim s
  if t.isEmpty then false
  else
    match t with
    | '+' :: r => !(strUnsignedDec r)
    | '-' :: r => !(strUnsignedDec r)
    | _ => !(strNumericNoSign t)

/-- Embedding of `Number.isInteger(value)` for a string argument: the
check does not coerce, so no string is an integer — pinned by the repo's
own unit test `isPositiveInteger('1') = false`
(tests/unit/validation.test.js line 32). -/
def numberIsIntegerOfString (_s : List Char) : Bool := false

/-- Embedding of `validation.isPositiveInteger(value)` for a string
argument (validation module lines 24-26):
`Number.isInteger(value) && value > 0`; the left conjunct is false for
every string, so the comparison is never evaluated. -/
def isPositiveIntegerStr (s : List Char) : Bool := numberIsIntegerOfString s

/-- Classification of the `handleGetMovieById` path parameter
(movie.controller.js lines 124-136): `numericId` when
`!isNaN(identifier) && validation.isPositiveInteger(identifier)`,
otherwise `slugToken` when `isValidSlug(identifier)`, otherwise rejected
as `invalid` with a 400 validation response. -/
inductive IdentifierClass where
  | numericId : IdentifierClass
  | slugToken : IdentifierClass
  | invalid : IdentifierClass
  deriving Repr, DecidableEq

/-- The controller's identifier classification. -/
def classifyIdentifier (t : List Char) : IdentifierClass :=
  if !jsStringToNumberIsNaN t && isPositiveIntegerStr t then .numericId
  else if isValidSlug t then .slugToken
  else .invalid

/-- Storage column the single-record lookup targets. -/
inductive LookupColumn where
  | slugColumn : LookupColumn
  | movieIdColumn : LookupColumn
  deriving Repr, DecidableEq

/-- Embedding of the column choice in `getMovieById`
(movie.service.js line 165 and 188):
`isSlug = isValidSlug(identifier) && isNaN(identifier)` selects the `slug`
column, anything else the `movie_id` column. -/
def getMovieByIdLookup (identifier : List Char) : LookupColumn :=
  if isValidSlug identifier && jsStringToNumberIsNaN identifier then
    .slugColumn
  else .movieIdColumn

theorem ws_not_digit (c : Char) (h : isJsWs c = true) :
    isAsciiDigit c = false := by
  have hm : c ∈ jsWhitespaceChars := by simpa [isJsWs] using h
  fin_cases hm <;> decide

theorem digit_not_ws (c : Char) (h : isAsciiDigit c = true) :
    isJsWs c = false := by
  cases hw : isJsWs c with
  | false => rfl
  | true => rw [ws_not_digit c hw] at h; cases h

theorem dropWhile_eq_self_of_all_false (p : Char → Bool) (l : List Char)
    (h : ∀ c ∈ l, p c = false) : l.dropWhile p = l := by
  cases l with
  | nil => rfl
  | cons x xs =>
    rw [List.dropWhile_cons, if_neg]
    rw [h x (List.mem_cons_self x xs)]
    simp

theorem jsTrim_eq_self_of_digits (s : List Char)
    (hd : ∀ c ∈ s, isAsciiDigit c = true) : jsTrim s = s := by
  unfold jsTrim
  rw [dropWhile_eq_self_of_all_false isJsWs s
    (fun c hc => digit_not_ws c (hd c hc))]
  rw [dropWhile_eq_self_of_all_false isJsWs s.reverse
    (fun c hc => digit_not_ws c (hd c (List.mem_reverse.mp hc)))]
  exact List.reverse_reverse s

theorem strUnsignedDec_digits (s : List Char) (hne : s ≠ [])
    (hd : ∀ c ∈ s, isAsciiDigit c = true) : strUnsignedDec s = true := by
  unfold strUnsignedDec
  by_cases hinf : s = s2l "Infinity"
  · rw [if_pos hinf]
  · rw [if_neg hinf]
    have htw : s.takeWhile isAsciiDigit = s :=
      List.takeWhile_eq_self_iff.mpr hd
    have hdw : s.dropWhile isAsciiDigit = [] :=
      List.dropWhile_eq_nil_iff.mpr hd
    rw [htw, hdw]
    have hie : s.isEmpty = false := by
      cases s with
      | nil => exact absurd rfl hne
      | cons x xs => rfl
    simp only [hie, Bool.false_eq_true, if_false]

theorem strNumericNoSign_digits (s : List Char) (hne : s ≠ [])
    (hd : ∀ c ∈ s, isAsciiDigit c = true) : strNumericNoSign s = true := by
  have hdec := strUnsignedDec_digits s hne hd
  cases s with
  | nil => exact absurd rfl hne
  | cons c cs =>
    cases cs with
    | nil =>
      have harm : strNumericNoSign [c] = strUnsignedDec [c] := by
        unfold strNumericNoSign
        split
        case h_1 y t heq =>
          injection heq with h1 h2
          simp at h2
        case h_2 => rfl
      rw [harm]
      exact hdec
    | cons x r =>
      by_cases hc0 : c = '0'
      · subst hc0
        have hx : isAsciiDigit x = true :=
          hd x (List.mem_cons_of_mem _ (List.mem_cons_self _ _))
        have hnd : ∀ y : Char, isAsciiDigit y = false → (x == y) = false := by
          intro y hy
          cases hc : x == y with
          | true =>
            rw [beq_iff_eq.mp hc, hy] at hx
            cases hx
          | false => rfl
        have hxx : (x == 'x' || x == 'X') = false := by
          rw [hnd 'x' (by decide), hnd 'X' (by decide)]
          rfl
        have hxo : (x == 'o' || x == 'O') = false := by
          rw [hnd 'o' (by decide), hnd 'O' (by decide)]
          rfl
        have hxb : (x == 'b' || x == 'B') = false := by
          rw [hnd 'b' (by decide), hnd 'B' (by decide)]
          rfl
        simp only [strNumericNoSign, hxx, hxo, hxb, Bool.false_eq_true,
          if_false]
        exact hdec
      · have harm : strNumericNoSign (c :: x :: r) =
            strUnsignedDec (c :: x :: r) := by
          unfold strNumericNoSign
          split
          case h_1 y t heq =>
            injection heq with h1 _
            exact absurd h1 hc0
          case h_2 => rfl
        rw [harm]
        exact hdec

/-- For a nonempty all-digit string, `isNaN` is false: the string coerces
to a number. -/
theorem jsIsNaN_digits_false (s : List Char) (hne : s ≠ [])
    (hd : ∀ c ∈ s, isAsciiDigit c = true) :
    jsStringToNumberIsNaN s = false := by
  unfold jsStringToNumberIsNaN
  rw [jsTrim_eq_self_of_digits s hd]
  have hie : s.isEmpty = false := by
    cases s with
    | nil => exact absurd rfl hne
    | cons x xs => rfl
  simp only [hie, Bool.false_eq_true, if_false]
  split
  case h_1 _ _ =>
    have h2 := hd '+' (List.mem_cons_self _ _)
    exact absurd h2 (by decide)
  case h_2 _ _ =>
    have h2 := hd '-' (List.mem_cons_self _ _)
    exact absurd h2 (by decide)
  case h_3 =>
    rw [strNumericNoSign_digits s hne hd]
    rfl

theorem digit_isLowerAlnum (c : Char) (h : isAsciiDigit c = true) :
    isLowerAlnum c = true := by
  unfold isLowerAlnum
  unfold isAsciiDigit at h
  simp only [Bool.or_eq_true]
  exact Or.inr h

theorem slugSegRest_digits :
    ∀ l : List Char, (∀ c ∈ l, isAsciiDigit c = true) →
      slugSegRest l = true := by
  intro l
  induction l with
  | nil => intro _; rfl
  | cons x xs ih =>
    intro h
    have hx := h x (List.mem_cons_self x xs)
    have hxh : (x == '-') = false := by
      cases hb : x == '-' with
      | true =>
        rw [beq_iff_eq.mp hb] at hx
        exact absurd hx (by decide)
      | false => rfl
    simp only [slugSegRest, hxh, Bool.false_eq_true, if_false]
    rw [digit_isLowerAlnum x hx, ih (fun c hc => h c (List.mem_cons_of_mem x hc))]
    rfl

theorem slugSegStart_digits (l : List Char) (hne : l ≠ [])
    (h : ∀ c ∈ l, isAsciiDigit c = true) : slugSegStart l = true := by
  cases l with
  | nil => exact absurd rfl hne
  | cons x xs =>
    simp only [slugSegStart]
    rw [digit_isLowerAlnum x (h x (List.mem_cons_self x xs)),
      slugSegRest_digits xs (fun c hc => h c (List.mem_cons_of_mem x hc))]
    rfl

/-- C10 (amended): every nonempty all-digit identifier of length at most
100 passes `isValidSlug` (the slug grammar admits all-digit tokens), yet
for every all-digit identifier `getMovieById` evaluates
`isValidSlug(identifier) && isNaN(identifier)` to false and issues the
lookup against the `movie_id` column — numeric interpretation always wins,
so a persisted record whose slug is all digits can never be retrieved by
slug. -/
theorem digitIdentifier_lookup (s : List Char) (hne : s ≠ [])
    (hd : ∀ c ∈ s, isAsciiDigit c = true) :
    (s.length ≤ 100 → isValidSlug s = true) ∧
    getMovieByIdLookup s = LookupColumn.movieIdColumn := by
  constructor
  · intro hlen
    unfold isValidSlug
    have hie : s.isEmpty = false := by
      cases s with
      | nil => exact absurd rfl hne
      | cons x xs => rfl
    simp only [hie, Bool.false_eq_true, if_false]
    rw [slugSegStart_digits s hne hd]
    simpa using hlen
  · unfold getMovieByIdLookup
    rw [jsIsNaN_digits_false s hne hd]
    simp

/-- Witness for `digitIdentifier_lookup` at the identifier `"123"`. -/
theorem digitIdentifier_lookup_witness :
    ((s2l "123").length ≤ 100 → isValidSlug (s2l "123") = true) ∧
    getMovieByIdLookup (s2l "123") = LookupColumn.movieIdColumn :=
  digitIdentifier_lookup (s2l "123") (by decide) (by decide)

/-- C10 counterexample: a 101-digit identifier consists solely of decimal
digits yet fails `isValidSlug` (the length cap is 100), so the claim
quantified over every all-digit identifier string fails there (the lookup
still targets `movie_id`). -/
theorem digitSlug_over100_counterexample :
    (∀ c ∈ List.replicate 101 '7', isAsciiDigit c = true) ∧
    isValidSlug (List.replicate 101 '7') = false ∧
    getMovieByIdLookup (List.replicate 101 '7') =
      LookupColumn.movieIdColumn := by
  decide

/-- C2 (amended): because `Number.isInteger` never accepts a string, the
controller's `isNumericId` check is false for every path parameter, so no
identifier is ever classified `NumericId`: the classification is `Slug`
exactly when `isValidSlug` accepts the token and `Invalid` otherwise.  In
particular `classify("123")` and `classify("0")` yield `Slug` (not
`NumericId(123)` resp. `Invalid`), `classify("the-dark-knight")` yields
`Slug`, and `classify("-bad-")` yields `Invalid`. -/
theorem classifyIdentifier_never_numeric (t : List Char) :
    classifyIdentifier t ≠ IdentifierClass.numericId ∧
    (classifyIdentifier t = IdentifierClass.slugToken ↔
      isValidSlug t = true) ∧
    (classifyIdentifier t = IdentifierClass.invalid ↔
      isValidSlug t = false) ∧
    classifyIdentifier (s2l "123") = IdentifierClass.slugToken ∧
    classifyIdentifier (s2l "0") = IdentifierClass.slugToken ∧
    classifyIdentifier (s2l "the-dark-knight") =
      IdentifierClass.slugToken ∧
    classifyIdentifier (s2l "-bad-") = IdentifierClass.invalid := by
  have hcls : classifyIdentifier t =
      if isValidSlug t then .slugToken else .invalid := by
    unfold classifyIdentifier isPositiveIntegerStr numberIsIntegerOfString
    simp
  refine ⟨?_, ?_, ?_, by decide, by decide, by decide, by decide⟩
  · rw [hcls]
    cases hv : isValidSlug t <;> simp
  · rw [hcls]
    cases hv : isValidSlug t <;> simp
  · rw [hcls]
    cases hv : isValidSlug t <;> simp

/-- C2 counterexample: the controller classifies `"123"` as a slug token,
not `NumericId(123)`, and `"0"` as a slug token, not `Invalid`. -/
theorem classifyIdentifier_counterexample :
    classifyIdentifier (s2l "123") = IdentifierClass.slugToken ∧
    classifyIdentifier (s2l "123") ≠ IdentifierClass.numericId ∧
    classifyIdentifier (s2l "0") = IdentifierClass.slugToken ∧
    classifyIdentifier (s2l "0") ≠ IdentifierClass.invalid := by
  decide

/-! ## Error classification
(src/utils errorMessages module `getHttpStatusCode` lines 532-572, and
src/middleware/errorHandler.js lines 15-60.) -/

/-- A JavaScript value sitting in an error's `code` field: MySQL drivers
use strings (`ER_DUP_ENTRY`), Mongoose uses numbers (11000). -/
inductive JsVal where
  | str : List Char → JsVal
  | num : Int → JsVal
  deriving Repr, DecidableEq

/-- Truthiness of such a value: the empty string and 0 are falsy. -/
def jsTruthyVal : JsVal → Bool
  | .str s => !s.isEmpty
  | .num n => n != 0

/-- Shape of a raw error as the two classifiers inspect it. -/
structure JsError where
  code : Option JsVal
  name : Option (List Char)
  message : List Char
  status : Option Int
  deriving Repr, DecidableEq

/-- Fallback of `error.code || error.name || ''` past the `code` field. -/
def nameFallback (e : JsError) : JsVal :=
  match e.name with
  | some s => if !s.isEmpty then .str s else .str []
  | none => .str []

/-- Embedding of `const errorCode = error.code || error.name || ''`
(errorMessages module line 533). -/
def errorCodeOf (e : JsError) : JsVal :=
  match e.code with
  | some v => if jsTruthyVal v then v else nameFallback e
  | none => nameFallback e

/-- `String.prototype.includes` on the embedded strings: the needle
occurs as a contiguous substring. -/
def includesStr (needle : List Char) : List Char → Bool
  | [] => needle.isEmpty
  | c :: t => List.isPrefixOf needle (c :: t) || includesStr needle t

/-- Embedding of `errorMessages.getHttpStatusCode(error)` (errorMessages
module lines 532-572): the if-chain mapping an error to its advisory HTTP
status. -/
def getHttpStatusCode (e : JsError) : Int :=
  let errorCode := errorCodeOf e
  let msg := e.message
  if errorCode == .str (s2l "ValidationError") ||
      includesStr (s2l "validation") msg then 400
  else if errorCode == .str (s2l "ER_DUP_ENTRY") then 409
  else if errorCode == .str (s2l "JsonWebTokenError") ||
      errorCode == .str (s2l "TokenExpiredError") then 401
  else if includesStr (s2l "not found") msg ||
      includesStr (s2l "does not exist") msg then 404
  else if includesStr (s2l "permission") msg ||
      includesStr (s2l "forbidden") msg then 403
  else if includesStr (s2l "File too large") msg ||
      includesStr (s2l "LIMIT_") msg then 413
  else if errorCode == .str (s2l "ECONNREFUSED") ||
      errorCode == .str (s2l "ER_ACCESS_DENIED_ERROR") then 503
  else if errorCode == .str (s2l "ETIMEDOUT") then 504
  else 500

/-- Embedding of the status computed by the global `errorHandler`
middleware (src/middleware/errorHandler.js lines 15-60): a default of
`err.status || 500`, then the reassignment chain (CastError 404, Mongoose
11000 400, ValidationError 400, `ER_DUP_ENTRY` 400, `ER_NO_SUCH_TABLE`
500); the response is sent with the final value. -/
def errorHandlerStatus (e : JsError) : Int :=
  let s0 := match e.status with
    | some n => if n != 0 then n else 500
    | none => 500
  let s1 := if e.name == some (s2l "CastError") then 404 else s0
  let s2 := if e.code == some (JsVal.num 11000) then 400 else s1
  let s3 := if e.name == some (s2l "ValidationError") then 400 else s2
  let s4 := if e.code == some (JsVal.str (s2l "ER_DUP_ENTRY")) then 400
    else s3
  if e.code == some (JsVal.str (s2l "ER_NO_SUCH_TABLE")) then 500 else s4

/-- C9 (amended): for every error carrying the storage duplicate-key code
`ER_DUP_ENTRY`, the `getHttpStatusCode` classifier yields 409 (Conflict)
— provided the message does not also claim to be a validation failure,
which an earlier clause maps to 400 — but the global `errorHandler`
middleware path maps the very same error code to 400, so not every
classification path the program applies surfaces a duplicate as 409. -/
theorem dupEntry_status_paths (e : JsError)
    (hdup : e.code = some (JsVal.str (s2l "ER_DUP_ENTRY"))) :
    (includesStr (s2l "validation") e.message = false →
      getHttpStatusCode e = 409) ∧
    errorHandlerStatus e = 400 := by
  have hec : errorCodeOf e = JsVal.str (s2l "ER_DUP_ENTRY") := by
    unfold errorCodeOf
    rw [hdup]
    rfl
  constructor
  · intro hmsg
    simp only [getHttpStatusCode, hec, hmsg]
    rfl
  · simp only [errorHandlerStatus, hdup]
    rfl

/-- Witness for `dupEntry_status_paths` at a concrete duplicate-slug
error. -/
theorem dupEntry_status_paths_witness :
    (includesStr (s2l "validation")
        (s2l "Duplicate entry inception for key movies.slug") = false →
      getHttpStatusCode
        { code := some (JsVal.str (s2l "ER_DUP_ENTRY")), name := none,
          message := s2l "Duplicate entry inception for key movies.slug",
          status := none } = 409) ∧
    errorHandlerStatus
      { code := some (JsVal.str (s2l "ER_DUP_ENTRY")), name := none,
        message := s2l "Duplicate entry inception for key movies.slug",
        status := none } = 400 :=
  dupEntry_status_paths
    { code := some (JsVal.str (s2l "ER_DUP_ENTRY")), name := none,
      message := s2l "Duplicate entry inception for key movies.slug",
      status := none } rfl

/-- C9 counterexample: for a concrete `ER_DUP_ENTRY` storage error, the
`getHttpStatusCode` classifier yields 409 but the `errorHandler`
middleware path sends status 400, so the claim that every classification
path the program applies produces 409 is false. -/
theorem errorHandler_dup_400_counterexample :
    getHttpStatusCode
      { code := some (JsVal.str (s2l "ER_DUP_ENTRY")), name := none,
        message := s2l "Duplicate entry for key slug",
        status := none } = 409 ∧
    errorHandlerStatus
      { code := some (JsVal.str (s2l "ER_DUP_ENTRY")), name := none,
        message := s2l "Duplicate entry for key slug",
        status := none } = 400 ∧
    (400 : Int) ≠ 409 := by
  refine ⟨rfl, rfl, by decide⟩
